import Mathlib

/-!
# Stock-ledger core of the SME ERP — shallow embedding

This file embeds the stock-ledger subsystem of the ERP server in Lean:
the data model (items, stock adjustments, work orders, purchase orders,
users) and the four mutating handlers plus `updateItem`:

* `adjustStock`        — `src/server/src/handlers/create_work_order.ts` (third segment)
* `createWorkOrder`    — `src/server/src/handlers/create_work_order.ts` (first segment)
* `completeWorkOrder`  — `src/server/src/handlers/create_purchase_order.ts` (fourth segment)
* `createPurchaseOrder`— `src/server/src/handlers/create_purchase_order.ts` (second segment)
* `updateItem`         — the drizzle implementation of the update-item handler

The database is a record of row lists; each drizzle call (`select ... where eq`,
`update ... set ... where eq`, `insert ... values`) is embedded as the
corresponding list operation.  A handler is a function from the pre-state to a
pair of its thrown-or-returned result and the post-state.  The handlers do not
open a transaction in the source, so writes performed before a `throw` stay in
the post-state: the embedding returns the partially mutated database on the
error path exactly where the source has already executed the writes.

Machine integers of the source (JS numbers validated as `int` by zod) are
embedded as `Int`; decimal money columns (`numeric`) as `Rat`; timestamps as an
abstract `Nat` clock passed into each handler.  Generated PO/WO numbers are
derived from the clock in the source; number generation is cosmetic per the
spec, so the generated string is passed as an argument.
-/

set_option autoImplicit false

namespace Erp

/-- `z.enum(['ADDITION', 'REMOVAL', 'CORRECTION'])`. -/
inductive StockAdjustmentType where
  | ADDITION
  | REMOVAL
  | CORRECTION
  deriving DecidableEq, Repr

/-- `z.enum(['OPEN', 'IN_PROGRESS', 'COMPLETED'])`. -/
inductive WorkOrderStatus where
  | OPEN
  | IN_PROGRESS
  | COMPLETED
  deriving DecidableEq, Repr

/-- `z.enum(['DRAFT', 'PENDING', 'APPROVED', 'REJECTED'])`. -/
inductive PurchaseOrderStatus where
  | DRAFT
  | PENDING
  | APPROVED
  | REJECTED
  deriving DecidableEq, Repr

/-- `z.enum(['ADMIN', 'WAREHOUSE_MANAGER', 'PURCHASING_STAFF', 'TECHNICIAN'])`. -/
inductive UserRole where
  | ADMIN
  | WAREHOUSE_MANAGER
  | PURCHASING_STAFF
  | TECHNICIAN
  deriving DecidableEq, Repr

/-- The string the source interpolates for a work-order status
(template literals print the enum's string value). -/
def WorkOrderStatus.toDbString : WorkOrderStatus → String
  | .OPEN => "OPEN"
  | .IN_PROGRESS => "IN_PROGRESS"
  | .COMPLETED => "COMPLETED"

/-- Row of `itemsTable`. -/
structure Item where
  id : Nat
  sku : String
  name : String
  description : Option String
  current_stock : Int
  minimum_stock : Int
  unit_price : Rat
  created_at : Nat
  updated_at : Nat
  deriving DecidableEq, Repr

/-- Row of `stockAdjustmentsTable` (append-only audit ledger). -/
structure StockAdjustment where
  id : Nat
  item_id : Nat
  adjustment_type : StockAdjustmentType
  quantity_change : Int
  reason : String
  previous_stock : Int
  new_stock : Int
  adjusted_by : String
  created_at : Nat
  deriving DecidableEq, Repr

/-- Row of `usersTable` (fields the core reads). -/
structure User where
  clerk_id : String
  email : String
  name : String
  role : UserRole
  deriving DecidableEq, Repr

/-- Row of `workOrdersTable`. -/
structure WorkOrder where
  id : Nat
  work_order_number : String
  description : String
  assigned_technician : String
  status : WorkOrderStatus
  created_by : String
  created_at : Nat
  updated_at : Nat
  completed_at : Option Nat
  deriving DecidableEq, Repr

/-- Row of `workOrderItemsTable`. -/
structure WorkOrderItem where
  work_order_id : Nat
  item_id : Nat
  quantity_used : Int
  deriving DecidableEq, Repr

/-- Row of `suppliersTable` (fields the core reads). -/
structure Supplier where
  id : Nat
  name : String
  deriving DecidableEq, Repr

/-- Row of `purchaseOrdersTable`. -/
structure PurchaseOrder where
  id : Nat
  po_number : String
  supplier_id : Nat
  status : PurchaseOrderStatus
  total_amount : Rat
  notes : Option String
  created_by : String
  created_at : Nat
  updated_at : Nat
  deriving DecidableEq, Repr

/-- Row of `purchaseOrderItemsTable`. -/
structure PurchaseOrderItem where
  po_id : Nat
  item_id : Nat
  quantity : Int
  unit_price : Rat
  total_price : Rat
  deriving DecidableEq, Repr

/-- The persistent state: one list of rows per table the core touches. -/
structure DB where
  items : List Item
  stockAdjustments : List StockAdjustment
  users : List User
  workOrders : List WorkOrder
  workOrderItems : List WorkOrderItem
  suppliers : List Supplier
  purchaseOrders : List PurchaseOrder
  purchaseOrderItems : List PurchaseOrderItem
  deriving DecidableEq, Repr

/-- Domain failures; the source throws `Error(message)`, classified here by the
spec's taxonomy with the exact message text preserved. -/
inductive ErpError where
  | notFound (msg : String)
  | invalidOperation (msg : String)
  | invalidState (msg : String)
  | validationError (msg : String)
  deriving DecidableEq, Repr

/-- `Math.abs` on an integer-valued JS number. -/
def jsAbs (n : Int) : Int := if n < 0 then -n else n

/-- `db.select().from(itemsTable).where(eq(itemsTable.id, id))`, first row. -/
def findItem (db : DB) (id : Nat) : Option Item :=
  db.items.find? (fun it => it.id == id)

/-- `db.update(itemsTable).set(...).where(eq(itemsTable.id, id))`. -/
def updateItemsById (items : List Item) (id : Nat) (f : Item → Item) : List Item :=
  items.map (fun it => if it.id == id then f it else it)

/-- `db.select().from(workOrdersTable).where(eq(workOrdersTable.id, id))`, first row. -/
def findWorkOrder (db : DB) (id : Nat) : Option WorkOrder :=
  db.workOrders.find? (fun wo => wo.id == id)

/-- `db.update(workOrdersTable).set(...).where(eq(workOrdersTable.id, id))`. -/
def updateWorkOrdersById (wos : List WorkOrder) (id : Nat) (f : WorkOrder → WorkOrder) :
    List WorkOrder :=
  wos.map (fun wo => if wo.id == id then f wo else wo)

/-- `db.select().from(suppliersTable).where(eq(suppliersTable.id, id))`, first row. -/
def findSupplier (db : DB) (id : Nat) : Option Supplier :=
  db.suppliers.find? (fun s => s.id == id)

/-- `db.select().from(usersTable).where(eq(usersTable.clerk_id, cid))`, first row. -/
def findUserByClerkId (db : DB) (cid : String) : Option User :=
  db.users.find? (fun u => u.clerk_id == cid)

/-- `adjustStockInputSchema`: `{item_id: number, adjustment_type, quantity_change:
int, reason: string}` — the schema places no further constraint on `reason`
(`z.string()`, no minimum length) nor on the sign of `quantity_change`. -/
structure AdjustStockInput where
  item_id : Nat
  adjustment_type : StockAdjustmentType
  quantity_change : Int
  reason : String
  deriving DecidableEq, Repr

/-- `adjustStock(input, adjustedBy)` from the handlers file.  Returns the thrown
error or the inserted `StockAdjustment` row, together with the post-state.  All
checks in the source precede all writes, so every error path returns the
pre-state unchanged. -/
def adjustStock (input : AdjustStockInput) (adjustedBy : String) (now : Nat) (db : DB) :
    Except ErpError StockAdjustment × DB :=
  match findItem db input.item_id with
  | none =>
      (Except.error (.notFound ("Item with id " ++ toString input.item_id ++ " not found")), db)
  | some item =>
      let previousStock := item.current_stock
      let step : Except ErpError (Int × Int) :=
        match input.adjustment_type with
        | .ADDITION =>
            let actualQuantityChange := jsAbs input.quantity_change
            Except.ok (actualQuantityChange, previousStock + actualQuantityChange)
        | .REMOVAL =>
            let actualQuantityChange := -(jsAbs input.quantity_change)
            let newStock := previousStock + actualQuantityChange
            if newStock < 0 then
              Except.error (.invalidOperation
                ("Insufficient stock. Current stock: " ++ toString previousStock ++
                 ", attempted removal: " ++ toString (jsAbs input.quantity_change)))
            else
              Except.ok (actualQuantityChange, newStock)
        | .CORRECTION =>
            let actualQuantityChange := input.quantity_change
            let newStock := previousStock + actualQuantityChange
            if newStock < 0 then
              Except.error (.invalidOperation
                ("Stock correction would result in negative stock. Current stock: " ++
                 toString previousStock ++ ", correction: " ++ toString input.quantity_change))
            else
              Except.ok (actualQuantityChange, newStock)
      match step with
      | .error e => (Except.error e, db)
      | .ok (actualQuantityChange, newStock) =>
          let items' := updateItemsById db.items input.item_id
            (fun it => { it with current_stock := newStock, updated_at := now })
          let adj : StockAdjustment :=
            { id := db.stockAdjustments.length
              item_id := input.item_id
              adjustment_type := input.adjustment_type
              quantity_change := actualQuantityChange
              reason := input.reason
              previous_stock := previousStock
              new_stock := newStock
              adjusted_by := adjustedBy
              created_at := now }
          (Except.ok adj,
           { db with items := items', stockAdjustments := db.stockAdjustments ++ [adj] })

/-- The per-line loop body of `completeWorkOrder` (steps 3–4 of the source):
for each work-order line, re-read the item, fail if missing or if the deduction
would go negative, otherwise write the decremented stock and append one REMOVAL
audit row, then continue with the next line.  The source performs these writes
directly on `db` with no enclosing transaction, so an error part-way through
returns the database as already mutated by the earlier iterations. -/
def completeLines (wo : WorkOrder) (now : Nat) :
    List WorkOrderItem → DB → Except ErpError Unit × DB
  | [], db => (Except.ok (), db)
  | workOrderItem :: rest, db =>
      match findItem db workOrderItem.item_id with
      | none =>
          (Except.error (.notFound
            ("Item with ID " ++ toString workOrderItem.item_id ++ " not found")), db)
      | some item =>
          let previousStock := item.current_stock
          let newStock := previousStock - workOrderItem.quantity_used
          if newStock < 0 then
            (Except.error (.invalidOperation
              ("Insufficient stock for item " ++ item.sku ++ ". Available: " ++
               toString previousStock ++ ", Required: " ++
               toString workOrderItem.quantity_used)), db)
          else
            let db1 := { db with items := (updateItemsById db.items workOrderItem.item_id
              (fun it => { it with current_stock := newStock, updated_at := now })) }
            let adj : StockAdjustment :=
              { id := db1.stockAdjustments.length
                item_id := workOrderItem.item_id
                adjustment_type := .REMOVAL
                quantity_change := -workOrderItem.quantity_used
                reason := "Work order completion: " ++ wo.work_order_number
                previous_stock := previousStock
                new_stock := newStock
                adjusted_by := wo.assigned_technician
                created_at := now }
            completeLines wo now rest
              { db1 with stockAdjustments := db1.stockAdjustments ++ [adj] }

/-- `completeWorkOrder(input)` from the handlers file: validate existence and
IN_PROGRESS status, run the per-line deduction loop, then mark the work order
COMPLETED with `completed_at` set.  No transaction wraps the loop in the
source; the error paths return whatever state the loop had already written. -/
def completeWorkOrder (workOrderId : Nat) (now : Nat) (db : DB) :
    Except ErpError WorkOrder × DB :=
  match findWorkOrder db workOrderId with
  | none =>
      (Except.error (.notFound
        ("Work order with ID " ++ toString workOrderId ++ " not found")), db)
  | some workOrder =>
      if workOrder.status ≠ .IN_PROGRESS then
        (Except.error (.invalidState
          ("Work order must be IN_PROGRESS to complete. Current status: " ++
           workOrder.status.toDbString)), db)
      else
        let workOrderItems := db.workOrderItems.filter
          (fun woi => woi.work_order_id == workOrderId)
        match completeLines workOrder now workOrderItems db with
        | (.error e, db') => (Except.error e, db')
        | (.ok _, db') =>
            let updated := { workOrder with
              status := .COMPLETED, completed_at := some now, updated_at := now }
            (Except.ok updated,
             { db' with workOrders := (updateWorkOrdersById db'.workOrders workOrderId
                (fun wo => { wo with
                  status := .COMPLETED, completed_at := some now, updated_at := now })) })

/-- One line of `createWorkOrderInputSchema.items`:
`{item_id: number, quantity_used: int positive}`. -/
structure CreateWorkOrderLine where
  item_id : Nat
  quantity_used : Int
  deriving DecidableEq, Repr

/-- `createWorkOrderInputSchema`. -/
structure CreateWorkOrderInput where
  description : String
  assigned_technician : String
  items : List CreateWorkOrderLine
  deriving DecidableEq, Repr

/-- Step 3 of `createWorkOrder`: for each line, fail if the item is missing or
its stock is below the requested quantity.  A pre-check only — no write. -/
def checkWorkOrderLines (db : DB) : List CreateWorkOrderLine → Except ErpError Unit
  | [] => Except.ok ()
  | line :: rest =>
      match findItem db line.item_id with
      | none =>
          Except.error (.notFound ("Item with id " ++ toString line.item_id ++ " not found"))
      | some dbItem =>
          if dbItem.current_stock < line.quantity_used then
            Except.error (.invalidOperation
              ("Insufficient stock for item " ++ dbItem.name ++ ". Available: " ++
               toString dbItem.current_stock ++ ", Required: " ++
               toString line.quantity_used))
          else
            checkWorkOrderLines db rest

/-- `createWorkOrder(input, createdBy)` from the handlers file.  The generated
`WO-...` number is derived from the clock in the source (cosmetic per the spec)
and is passed in as `workOrderNumber`. -/
def createWorkOrder (input : CreateWorkOrderInput) (createdBy : String)
    (workOrderNumber : String) (now : Nat) (db : DB) : Except ErpError WorkOrder × DB :=
  match findUserByClerkId db input.assigned_technician with
  | none => (Except.error (.validationError "Assigned technician not found"), db)
  | some technician =>
      if technician.role ≠ .TECHNICIAN then
        (Except.error (.validationError "Assigned user must have TECHNICIAN role"), db)
      else
        match checkWorkOrderLines db input.items with
        | .error e => (Except.error e, db)
        | .ok _ =>
            let workOrder : WorkOrder :=
              { id := db.workOrders.length + 1
                work_order_number := workOrderNumber
                description := input.description
                assigned_technician := input.assigned_technician
                status := .OPEN
                created_by := createdBy
                created_at := now
                updated_at := now
                completed_at := none }
            let newLines := input.items.map (fun line =>
              { work_order_id := workOrder.id
                item_id := line.item_id
                quantity_used := line.quantity_used : WorkOrderItem })
            (Except.ok workOrder,
             { db with workOrders := db.workOrders ++ [workOrder]
                       workOrderItems := db.workOrderItems ++ newLines })

/-- One line of `createPurchaseOrderInputSchema.items`:
`{item_id: number, quantity: int positive, unit_price: number positive}`. -/
structure CreatePurchaseOrderLine where
  item_id : Nat
  quantity : Int
  unit_price : Rat
  deriving DecidableEq, Repr

/-- `createPurchaseOrderInputSchema`. -/
structure CreatePurchaseOrderInput where
  supplier_id : Nat
  items : List CreatePurchaseOrderLine
  notes : Option String
  deriving DecidableEq, Repr

/-- `createPurchaseOrder(input, createdBy)` from the handlers file: validate
the supplier, batch-validate the items by comparing the number of rows matched
by `inArray` with the number of requested ids, total the input lines, then
insert the order and its lines.  The generated `PO-...` number is passed in as
`poNumber` (clock-derived in the source, cosmetic per the spec). -/
def createPurchaseOrder (input : CreatePurchaseOrderInput) (createdBy : String)
    (poNumber : String) (now : Nat) (db : DB) : Except ErpError PurchaseOrder × DB :=
  match findSupplier db input.supplier_id with
  | none =>
      (Except.error (.notFound
        ("Supplier with id " ++ toString input.supplier_id ++ " not found")), db)
  | some _ =>
      let itemIds := input.items.map (fun line => line.item_id)
      let existingItems := db.items.filter (fun it => itemIds.contains it.id)
      if existingItems.length ≠ itemIds.length then
        let foundIds := existingItems.map (fun it => it.id)
        let missingIds := itemIds.filter (fun id => ¬ foundIds.contains id)
        (Except.error (.notFound
          ("Items with ids [" ++ String.intercalate ", " (missingIds.map toString) ++
           "] not found")), db)
      else
        let totalAmount := input.items.foldl
          (fun sum line => sum + (line.quantity : Rat) * line.unit_price) 0
        let purchaseOrder : PurchaseOrder :=
          { id := db.purchaseOrders.length + 1
            po_number := poNumber
            supplier_id := input.supplier_id
            status := .DRAFT
            total_amount := totalAmount
            notes := input.notes
            created_by := createdBy
            created_at := now
            updated_at := now }
        let purchaseOrderItems := input.items.map (fun line =>
          { po_id := purchaseOrder.id
            item_id := line.item_id
            quantity := line.quantity
            unit_price := line.unit_price
            total_price := (line.quantity : Rat) * line.unit_price : PurchaseOrderItem })
        (Except.ok purchaseOrder,
         { db with purchaseOrders := db.purchaseOrders ++ [purchaseOrder]
                   purchaseOrderItems := db.purchaseOrderItems ++ purchaseOrderItems })

/-- `updateItemInputSchema`: `{id, sku?, name?, description?, minimum_stock?,
unit_price?}` — the schema carries no `current_stock` field. -/
structure UpdateItemInput where
  id : Nat
  sku : Option String
  name : Option String
  description : Option (Option String)
  minimum_stock : Option Int
  unit_price : Option Rat
  deriving DecidableEq, Repr

/-- `updateItem(input)` from the update-item handler: verify existence, then
write only the provided fields plus `updated_at`; `current_stock` is never in
the update object. -/
def updateItem (input : UpdateItemInput) (now : Nat) (db : DB) : Except ErpError Item × DB :=
  match findItem db input.id with
  | none =>
      (Except.error (.notFound ("Item with ID " ++ toString input.id ++ " not found")), db)
  | some _ =>
      let apply : Item → Item := fun it =>
        { it with
          updated_at := now
          sku := input.sku.getD it.sku
          name := input.name.getD it.name
          description := input.description.getD it.description
          minimum_stock := input.minimum_stock.getD it.minimum_stock
          unit_price := input.unit_price.getD it.unit_price }
      let items' := updateItemsById db.items input.id apply
      match items'.find? (fun it => it.id == input.id) with
      | none =>
          (Except.error (.notFound ("Item with ID " ++ toString input.id ++ " not found")),
           { db with items := items' })
      | some updated => (Except.ok updated, { db with items := items' })

/-! ## Observation helpers and basic lemmas -/

/-- The on-hand quantity of the item with id `x`, when it exists. -/
def stockOf (db : DB) (x : Nat) : Option Int :=
  (findItem db x).map (fun it => it.current_stock)

/-- All items of the database carry a non-negative stock. -/
def allStocksNonneg (db : DB) : Prop :=
  ∀ it ∈ db.items, 0 ≤ it.current_stock

instance (db : DB) : Decidable (allStocksNonneg db) :=
  inferInstanceAs (Decidable (∀ it ∈ db.items, 0 ≤ it.current_stock))

/-- The caller-determined fields of an audit row: item, type, signed delta,
reason, actor. -/
def adjSummary (a : StockAdjustment) :
    Nat × StockAdjustmentType × Int × String × String :=
  (a.item_id, a.adjustment_type, a.quantity_change, a.reason, a.adjusted_by)

/-- Total quantity the given work-order lines consume from item `x`. -/
def usedFor (x : Nat) (lines : List WorkOrderItem) : Int :=
  ((lines.filter (fun l => l.item_id == x)).map (fun l => l.quantity_used)).sum

theorem jsAbs_nonneg (n : Int) : 0 ≤ jsAbs n := by
  simp only [jsAbs]; split <;> omega

theorem jsAbs_neg (n : Int) : jsAbs (-n) = jsAbs n := by
  simp only [jsAbs]; split <;> split <;> omega

theorem find?_map_ite {α : Type} (key : α → Nat) (l : List α) (id x : Nat) (f : α → α)
    (hf : ∀ a, key (f a) = key a) :
    (l.map (fun a => if key a == id then f a else a)).find? (fun a => key a == x) =
      if x = id then (l.find? (fun a => key a == id)).map f
      else l.find? (fun a => key a == x) := by
  induction l with
  | nil => simp
  | cons a l ih =>
      simp only [List.map_cons]
      by_cases hax : key a = id
      · rw [if_pos (by simpa [beq_iff_eq] using hax)]
        by_cases hxi : x = id
        · have h1 : (fun b => key b == x) (f a) = true := by
            simp [beq_iff_eq, hf, hax, hxi]
          have h2 : (fun b => key b == id) a = true := by
            simp [beq_iff_eq, hax]
          rw [List.find?_cons_of_pos (p := fun b => key b == x) _ h1, if_pos hxi,
              List.find?_cons_of_pos (p := fun b => key b == id) _ h2]
          rfl
        · have h1 : ¬ (fun b => key b == x) (f a) = true := by
            simp [beq_iff_eq, hf, hax]; omega
          have h2 : ¬ (fun b => key b == x) a = true := by
            simp [beq_iff_eq, hax]; omega
          rw [List.find?_cons_of_neg (p := fun b => key b == x) _ h1, ih, if_neg hxi,
              if_neg hxi, List.find?_cons_of_neg (p := fun b => key b == x) _ h2]
      · rw [if_neg (by simpa [beq_iff_eq] using hax)]
        by_cases haxx : key a = x
        · have hxi : ¬ x = id := by omega
          have h1 : (fun b => key b == x) a = true := by
            simp [beq_iff_eq, haxx]
          rw [List.find?_cons_of_pos (p := fun b => key b == x) _ h1, if_neg hxi,
              List.find?_cons_of_pos (p := fun b => key b == x) _ h1]
        · have h1 : ¬ (fun b => key b == x) a = true := by
            simp [beq_iff_eq]; omega
          rw [List.find?_cons_of_neg (p := fun b => key b == x) _ h1, ih]
          by_cases hxi : x = id
          · have h2 : ¬ (fun b => key b == id) a = true := by
              simp [beq_iff_eq]; omega
            rw [if_pos hxi, if_pos hxi,
                List.find?_cons_of_neg (p := fun b => key b == id) _ h2]
          · rw [if_neg hxi, if_neg hxi,
                List.find?_cons_of_neg (p := fun b => key b == x) _ h1]

theorem find?_updateItemsById (l : List Item) (id x : Nat) (f : Item → Item)
    (hf : ∀ it, (f it).id = it.id) :
    (updateItemsById l id f).find? (fun it => it.id == x) =
      if x = id then (l.find? (fun it => it.id == id)).map f
      else l.find? (fun it => it.id == x) := by
  simpa [updateItemsById] using find?_map_ite (fun it => it.id) l id x f hf

theorem find?_updateWorkOrdersById (l : List WorkOrder) (id x : Nat) (f : WorkOrder → WorkOrder)
    (hf : ∀ wo, (f wo).id = wo.id) :
    (updateWorkOrdersById l id f).find? (fun wo => wo.id == x) =
      if x = id then (l.find? (fun wo => wo.id == id)).map f
      else l.find? (fun wo => wo.id == x) := by
  simpa [updateWorkOrdersById] using find?_map_ite (fun wo => wo.id) l id x f hf

/-! ## Lemmas on the completion loop -/

/-- The on-hand quantity recorded for item `x` in a row list. -/
def stockOfItems (l : List Item) (x : Nat) : Option Int :=
  (l.find? (fun it => it.id == x)).map (fun it => it.current_stock)

theorem stockOf_def (db : DB) (x : Nat) : stockOf db x = stockOfItems db.items x := rfl

/-- Observable fields of the audit row the completion loop writes for a line. -/
def lineSummary (wo : WorkOrder) (l : WorkOrderItem) :
    Nat × StockAdjustmentType × Int × String × String :=
  (l.item_id, StockAdjustmentType.REMOVAL, -l.quantity_used,
   "Work order completion: " ++ wo.work_order_number, wo.assigned_technician)

theorem usedFor_nil (x : Nat) : usedFor x [] = 0 := rfl

theorem usedFor_cons (x : Nat) (l : WorkOrderItem) (rest : List WorkOrderItem) :
    usedFor x (l :: rest) =
      (if l.item_id = x then l.quantity_used else 0) + usedFor x rest := by
  simp only [usedFor, List.filter_cons]
  by_cases h : l.item_id = x
  · simp [h]
  · simp [h]

/-- The completion loop touches only `items` and `stockAdjustments`. -/
theorem completeLines_frame (wo : WorkOrder) (now : Nat) (lines : List WorkOrderItem)
    (db : DB) :
    (completeLines wo now lines db).2.workOrders = db.workOrders ∧
    (completeLines wo now lines db).2.workOrderItems = db.workOrderItems ∧
    (completeLines wo now lines db).2.users = db.users ∧
    (completeLines wo now lines db).2.suppliers = db.suppliers ∧
    (completeLines wo now lines db).2.purchaseOrders = db.purchaseOrders ∧
    (completeLines wo now lines db).2.purchaseOrderItems = db.purchaseOrderItems := by
  induction lines generalizing db with
  | nil => simp [completeLines]
  | cons l rest ih =>
      cases hfind : findItem db l.item_id with
      | none => simp [completeLines, hfind]
      | some item =>
          by_cases hneg : item.current_stock - l.quantity_used < 0
          · simp [completeLines, hfind, hneg]
          · simpa [completeLines, hfind, hneg] using ih _

/-- The completion loop never writes a negative stock. -/
theorem completeLines_nonneg (wo : WorkOrder) (now : Nat) (lines : List WorkOrderItem)
    (db : DB) (h : ∀ it ∈ db.items, 0 ≤ it.current_stock) :
    ∀ it ∈ (completeLines wo now lines db).2.items, 0 ≤ it.current_stock := by
  induction lines generalizing db with
  | nil => simpa [completeLines] using h
  | cons l rest ih =>
      cases hfind : findItem db l.item_id with
      | none => simpa [completeLines, hfind] using h
      | some item =>
          by_cases hneg : item.current_stock - l.quantity_used < 0
          · simpa [completeLines, hfind, hneg] using h
          · simp only [completeLines, hfind, hneg, if_neg (by omega : ¬ item.current_stock - l.quantity_used < 0)]
            apply ih
            intro it hit
            simp only [updateItemsById, List.mem_map] at hit
            obtain ⟨it0, hit0, rfl⟩ := hit
            by_cases hid : it0.id = l.item_id
            · simp only [hid, beq_self_eq_true, if_pos]
              omega
            · simpa [hid] using h it0 hit0

/-- On a successful run, the loop deducts from each item exactly the total its
lines consume. -/
theorem completeLines_ok_stocks (wo : WorkOrder) (now : Nat) (lines : List WorkOrderItem)
    (db db' : DB) (u : Unit)
    (h : completeLines wo now lines db = (Except.ok u, db')) :
    ∀ x, stockOfItems db'.items x =
      (stockOfItems db.items x).map (fun s => s - usedFor x lines) := by
  induction lines generalizing db with
  | nil =>
      simp only [completeLines, Prod.mk.injEq] at h
      obtain ⟨-, rfl⟩ := h
      intro x
      cases hs : stockOfItems db.items x <;> simp [usedFor_nil]
  | cons l rest ih =>
      cases hfind : findItem db l.item_id with
      | none => simp [completeLines, hfind] at h
      | some item =>
          by_cases hneg : item.current_stock - l.quantity_used < 0
          · simp [completeLines, hfind, hneg] at h
          · simp only [completeLines, hfind,
              if_neg (by omega : ¬ item.current_stock - l.quantity_used < 0)] at h
            intro x
            rw [ih _ h x]
            have hupd := find?_updateItemsById db.items l.item_id x (fun it => { it with current_stock := item.current_stock - l.quantity_used, updated_at := now }) (fun it => rfl)
            by_cases hx : x = l.item_id
            · subst hx
              simp only [stockOfItems, hupd, if_pos rfl]
              have hfind' : db.items.find? (fun it => it.id == l.item_id) = some item := hfind
              rw [hfind', usedFor_cons, if_pos rfl]
              simp only [if_true, Option.map_some', Option.some.injEq]
              omega
            · simp only [stockOfItems, hupd, if_neg hx]
              rw [usedFor_cons, if_neg (fun hc => hx hc.symm)]
              cases db.items.find? (fun it => it.id == x) <;> simp

/-- On a successful run, the loop appends exactly one REMOVAL audit row per
line, in order, carrying the line's item, its negated quantity, the
work-order-number reason and the assigned technician. -/
theorem completeLines_ok_adjustments (wo : WorkOrder) (now : Nat)
    (lines : List WorkOrderItem) (db db' : DB) (u : Unit)
    (h : completeLines wo now lines db = (Except.ok u, db')) :
    db'.stockAdjustments.map adjSummary =
      db.stockAdjustments.map adjSummary ++ lines.map (lineSummary wo) := by
  induction lines generalizing db with
  | nil =>
      simp only [completeLines, Prod.mk.injEq] at h
      obtain ⟨-, rfl⟩ := h
      simp
  | cons l rest ih =>
      cases hfind : findItem db l.item_id with
      | none => simp [completeLines, hfind] at h
      | some item =>
          by_cases hneg : item.current_stock - l.quantity_used < 0
          · simp [completeLines, hfind, hneg] at h
          · simp only [completeLines, hfind,
              if_neg (by omega : ¬ item.current_stock - l.quantity_used < 0)] at h
            rw [ih _ h]
            simp [adjSummary, lineSummary, List.append_assoc]

/-- Every audit row present after a (possibly failing) completion-loop run is
either a pre-existing row or a REMOVAL row for one of the lines, satisfying
the ledger arithmetic with a non-negative resulting stock. -/
theorem completeLines_adjs_arith (wo : WorkOrder) (now : Nat)
    (lines : List WorkOrderItem) (db : DB) :
    ∀ a ∈ (completeLines wo now lines db).2.stockAdjustments,
      a ∈ db.stockAdjustments ∨
        (a.new_stock = a.previous_stock + a.quantity_change ∧
         a.adjustment_type = .REMOVAL ∧ 0 ≤ a.new_stock ∧
         a.reason = "Work order completion: " ++ wo.work_order_number ∧
         a.adjusted_by = wo.assigned_technician ∧
         ∃ l ∈ lines, a.quantity_change = -l.quantity_used) := by
  induction lines generalizing db with
  | nil => exact fun a ha => Or.inl ha
  | cons l rest ih =>
      cases hfind : findItem db l.item_id with
      | none =>
          intro a ha
          simp only [completeLines, hfind] at ha
          exact Or.inl ha
      | some item =>
          by_cases hneg : item.current_stock - l.quantity_used < 0
          · intro a ha
            simp only [completeLines, hfind, if_pos hneg] at ha
            exact Or.inl ha
          · intro a ha
            simp only [completeLines, hfind,
              if_neg (by omega : ¬ item.current_stock - l.quantity_used < 0)] at ha
            rcases ih _ a ha with hmem | hprops
            · rcases List.mem_append.mp hmem with hold | hnew
              · exact Or.inl hold
              · rw [List.mem_singleton] at hnew
                subst hnew
                exact Or.inr ⟨by dsimp; omega, rfl, by dsimp; omega, rfl, rfl, l,
                  List.mem_cons_self _ _, rfl⟩
            · obtain ⟨h1, h2, h3, h4, h5, l0, hl0, h6⟩ := hprops
              exact Or.inr ⟨h1, h2, h3, h4, h5, l0, List.mem_cons_of_mem _ hl0, h6⟩

/-! ## Helper lemmas for the adjustment handler -/

theorem jsAbs_pos (n : Int) (h : n ≠ 0) : 0 < jsAbs n := by
  simp only [jsAbs]; split <;> omega

/-- Reading back the stock of the row the handler just rewrote. -/
theorem stockOf_mk_update (db : DB) (id : Nat) (ns : Int) (now : Nat)
    (adjs : List StockAdjustment) (item : Item) (hit : findItem db id = some item) :
    stockOf { db with
      items := updateItemsById db.items id
        (fun it => { it with current_stock := ns, updated_at := now }),
      stockAdjustments := adjs } id = some ns := by
  have hfind' : db.items.find? (fun it => it.id == id) = some item := hit
  simp only [stockOf, findItem]
  rw [find?_updateItemsById db.items id id
        (fun it => { it with current_stock := ns, updated_at := now }) (fun it => rfl),
      if_pos rfl, hfind']
  rfl

/-! ## Concrete databases used to witness the theorems -/

/-- Item 1 with 100 on hand, the running example of the spec's scenarios. -/
def item100 : Item :=
  { id := 1, sku := "SKU-1", name := "Widget", description := none,
    current_stock := 100, minimum_stock := 10, unit_price := 5,
    created_at := 0, updated_at := 0 }

/-- A one-item database for the adjustment scenarios. -/
def adjDB : DB :=
  { items := [item100], stockAdjustments := [], users := [], workOrders := [],
    workOrderItems := [], suppliers := [], purchaseOrders := [], purchaseOrderItems := [] }

/-- Scenario D's two items: stock 50 and 30. -/
def itemA : Item :=
  { id := 1, sku := "SKU-A", name := "Widget A", description := none,
    current_stock := 50, minimum_stock := 5, unit_price := 10,
    created_at := 0, updated_at := 0 }

def itemB : Item :=
  { id := 2, sku := "SKU-B", name := "Widget B", description := none,
    current_stock := 30, minimum_stock := 5, unit_price := 20,
    created_at := 0, updated_at := 0 }

def techUser : User :=
  { clerk_id := "tech-1", email := "tech@example.com", name := "Tech",
    role := .TECHNICIAN }

/-- Work order 1, IN_PROGRESS, assigned to `tech-1`. -/
def woSample : WorkOrder :=
  { id := 1, work_order_number := "WO-2024-01-01-0001", description := "maintenance",
    assigned_technician := "tech-1", status := .IN_PROGRESS, created_by := "admin-1",
    created_at := 0, updated_at := 0, completed_at := none }

/-- Scenario D: lines (item 1, qty 5) and (item 2, qty 3) against stocks 50/30. -/
def sampleDB : DB :=
  { items := [itemA, itemB], stockAdjustments := [], users := [techUser],
    workOrders := [woSample],
    workOrderItems := [⟨1, 1, 5⟩, ⟨1, 2, 3⟩],
    suppliers := [⟨1, "Acme"⟩], purchaseOrders := [], purchaseOrderItems := [] }

/-- Like `sampleDB` but the second line asks for 40 of item 2 (stock 30), so the
completion loop fails on line 2 after having already processed line 1. -/
def failDB : DB :=
  { sampleDB with workOrderItems := [⟨1, 1, 5⟩, ⟨1, 2, 40⟩] }

/-! ## The claims -/

/-- Claim C4: for an existing item, `adjustStock` normalizes the delta by
adjustment type — ADDITION adds `|quantityChange|`, REMOVAL subtracts
`|quantityChange|`, CORRECTION applies it as-is — the stored
`quantity_change` is the signed normalized value, and a REMOVAL behaves
identically on `q` and `-q`. -/
theorem adjustStock_normalizes (input : AdjustStockInput) (u : String) (now : Nat)
    (db : DB) (item : Item) (hit : findItem db input.item_id = some item) :
    (input.adjustment_type = .ADDITION →
      ∃ adj, (adjustStock input u now db).1 = Except.ok adj ∧
        adj.quantity_change = jsAbs input.quantity_change ∧
        adj.new_stock = item.current_stock + jsAbs input.quantity_change ∧
        stockOf (adjustStock input u now db).2 input.item_id = some adj.new_stock) ∧
    (input.adjustment_type = .REMOVAL →
      ∀ adj, (adjustStock input u now db).1 = Except.ok adj →
        adj.quantity_change = -(jsAbs input.quantity_change) ∧
        adj.new_stock = item.current_stock - jsAbs input.quantity_change ∧
        stockOf (adjustStock input u now db).2 input.item_id = some adj.new_stock) ∧
    (input.adjustment_type = .CORRECTION →
      ∀ adj, (adjustStock input u now db).1 = Except.ok adj →
        adj.quantity_change = input.quantity_change ∧
        adj.new_stock = item.current_stock + input.quantity_change ∧
        stockOf (adjustStock input u now db).2 input.item_id = some adj.new_stock) ∧
    (input.adjustment_type = .REMOVAL →
      adjustStock { input with quantity_change := -input.quantity_change } u now db =
        adjustStock input u now db) := by
  refine ⟨?_, ?_, ?_, ?_⟩
  · intro h
    simp only [adjustStock, hit, h]
    exact ⟨_, rfl, rfl, rfl,
      stockOf_mk_update db input.item_id _ now _ item hit⟩
  · intro h adj hok
    simp only [adjustStock, hit, h] at hok ⊢
    by_cases hc : item.current_stock + -(jsAbs input.quantity_change) < 0
    · rw [if_pos hc] at hok
      simp at hok
    · rw [if_neg hc] at hok ⊢
      simp only [Except.ok.injEq] at hok
      subst hok
      refine ⟨rfl, ?_, stockOf_mk_update db input.item_id _ now _ item hit⟩
      show item.current_stock + -(jsAbs input.quantity_change) =
        item.current_stock - jsAbs input.quantity_change
      omega
  · intro h adj hok
    simp only [adjustStock, hit, h] at hok ⊢
    by_cases hc : item.current_stock + input.quantity_change < 0
    · rw [if_pos hc] at hok
      simp at hok
    · rw [if_neg hc] at hok ⊢
      simp only [Except.ok.injEq] at hok
      subst hok
      exact ⟨rfl, rfl, stockOf_mk_update db input.item_id _ now _ item hit⟩
  · intro h
    simp only [adjustStock, hit, h, jsAbs_neg]

/-- Witness for C4 (Scenario C): on stock 100, REMOVAL of −40 stores
`quantity_change = −40` and yields stock 60, exactly as REMOVAL of +40 does. -/
theorem adjustStock_normalizes_witness :
    adjustStock ⟨1, .REMOVAL, -40, "x"⟩ "u" 7 adjDB =
      adjustStock ⟨1, .REMOVAL, 40, "x"⟩ "u" 7 adjDB ∧
    (adjustStock ⟨1, .REMOVAL, 40, "x"⟩ "u" 7 adjDB).1.map
      (fun a => (a.quantity_change, a.new_stock)) = Except.ok (-40, 60) := by
  constructor
  · exact (adjustStock_normalizes ⟨1, .REMOVAL, 40, "x"⟩ "u" 7 adjDB item100 rfl).2.2.2 rfl
  · rfl

/-- Claim C5: `adjustStock` fails with the insufficient-stock error exactly
when the new stock would be negative for a REMOVAL, with the
negative-correction error exactly when it would be negative for a CORRECTION,
an ADDITION never fails for stock reasons, and every failure (including item
not found) leaves the database unchanged: no stock mutation, no audit row. -/
theorem adjustStock_failure_modes (input : AdjustStockInput) (u : String) (now : Nat)
    (db : DB) :
    (findItem db input.item_id = none →
      adjustStock input u now db =
        (Except.error (.notFound
          ("Item with id " ++ toString input.item_id ++ " not found")), db)) ∧
    (∀ item, findItem db input.item_id = some item →
      ((input.adjustment_type = .REMOVAL →
        ((adjustStock input u now db).1 = Except.error (.invalidOperation
            ("Insufficient stock. Current stock: " ++ toString item.current_stock ++
             ", attempted removal: " ++ toString (jsAbs input.quantity_change))) ↔
          item.current_stock - jsAbs input.quantity_change < 0)) ∧
       (input.adjustment_type = .CORRECTION →
        ((adjustStock input u now db).1 = Except.error (.invalidOperation
            ("Stock correction would result in negative stock. Current stock: " ++
             toString item.current_stock ++ ", correction: " ++
             toString input.quantity_change)) ↔
          item.current_stock + input.quantity_change < 0)) ∧
       (input.adjustment_type = .ADDITION →
        ∃ adj, (adjustStock input u now db).1 = Except.ok adj))) ∧
    (∀ e, (adjustStock input u now db).1 = Except.error e →
      (adjustStock input u now db).2 = db) := by
  refine ⟨?_, ?_, ?_⟩
  · intro h
    simp [adjustStock, h]
  · intro item hit
    refine ⟨?_, ?_, ?_⟩
    · intro h
      simp only [adjustStock, hit, h]
      by_cases hc : item.current_stock + -(jsAbs input.quantity_change) < 0
      · rw [if_pos hc]
        exact ⟨fun _ => by omega, fun _ => rfl⟩
      · rw [if_neg hc]
        exact ⟨fun hcon => by simp at hcon, fun hy => absurd hy (by omega)⟩
    · intro h
      simp only [adjustStock, hit, h]
      by_cases hc : item.current_stock + input.quantity_change < 0
      · rw [if_pos hc]
        exact ⟨fun _ => hc, fun _ => rfl⟩
      · rw [if_neg hc]
        exact ⟨fun hcon => by simp at hcon, fun hy => absurd hy hc⟩
    · intro h
      simp only [adjustStock, hit, h]
      exact ⟨_, rfl⟩
  · intro e he
    cases hfind : findItem db input.item_id with
    | none => simp [adjustStock, hfind]
    | some item =>
        cases htype : input.adjustment_type with
        | ADDITION =>
            simp only [adjustStock, hfind, htype] at he
            simp at he
        | REMOVAL =>
            simp only [adjustStock, hfind, htype] at he ⊢
            by_cases hc : item.current_stock + -(jsAbs input.quantity_change) < 0
            · rw [if_pos hc]
            · rw [if_neg hc] at he
              simp at he
        | CORRECTION =>
            simp only [adjustStock, hfind, htype] at he ⊢
            by_cases hc : item.current_stock + input.quantity_change < 0
            · rw [if_pos hc]
            · rw [if_neg hc] at he
              simp at he

/-- Witness for C5 (Scenario B): on stock 100 a REMOVAL of 150 fails with the
insufficient-stock message, and the database is exactly the pre-state. -/
theorem adjustStock_failure_modes_witness :
    (adjustStock ⟨1, .REMOVAL, 150, "x"⟩ "u" 7 adjDB).1 =
      Except.error (.invalidOperation
        ("Insufficient stock. Current stock: " ++ toString (100 : Int) ++
         ", attempted removal: " ++ toString (jsAbs 150))) ∧
    (adjustStock ⟨1, .REMOVAL, 150, "x"⟩ "u" 7 adjDB).2 = adjDB := by
  have h := adjustStock_failure_modes ⟨1, .REMOVAL, 150, "x"⟩ "u" 7 adjDB
  have h1 := ((h.2.1 item100 rfl).1 rfl).mpr (by decide)
  exact ⟨h1, h.2.2 _ h1⟩

/-- Claim C3 (counterexample): `quantity_change = 0` passes the input schema
(`z.number().int()` has no non-zero constraint), and `adjustStock(ADDITION, 0)`
then inserts an audit row storing `quantity_change = 0` — not positive, so the
sign-matching clause fails as stated. -/
theorem addition_zero_stores_nonpositive_change :
    (adjustStock ⟨1, .ADDITION, 0, "z"⟩ "u" 7 adjDB).1.map
      (fun a => a.quantity_change) = Except.ok 0 ∧ ¬ (0 : Int) > 0 :=
  ⟨rfl, by omega⟩

/-- Claim C3 (amended): every audit row inserted by `adjustStock` satisfies
`new_stock = previous_stock + quantity_change`; the stored `quantity_change`
is `|input| ≥ 0` for ADDITION and `−|input| ≤ 0` for REMOVAL — strictly
positive resp. negative whenever the input magnitude is non-zero — and the raw
input for CORRECTION.  Every row `completeWorkOrder` inserts satisfies the
same arithmetic and is a REMOVAL row whose `quantity_change` is the negated
line quantity. -/
theorem ledger_arithmetic_and_sign :
    (∀ input u now db adj, (adjustStock input u now db).1 = Except.ok adj →
      adj.new_stock = adj.previous_stock + adj.quantity_change ∧
      (input.adjustment_type = .ADDITION →
        0 ≤ adj.quantity_change ∧ (input.quantity_change ≠ 0 → 0 < adj.quantity_change)) ∧
      (input.adjustment_type = .REMOVAL →
        adj.quantity_change ≤ 0 ∧ (input.quantity_change ≠ 0 → adj.quantity_change < 0)) ∧
      (input.adjustment_type = .CORRECTION → adj.quantity_change = input.quantity_change)) ∧
    (∀ woId now db a, a ∈ (completeWorkOrder woId now db).2.stockAdjustments →
      a ∈ db.stockAdjustments ∨
        (a.new_stock = a.previous_stock + a.quantity_change ∧
         a.adjustment_type = .REMOVAL ∧
         ∃ l ∈ db.workOrderItems, l.work_order_id = woId ∧
           a.quantity_change = -l.quantity_used)) := by
  constructor
  · intro input u now db adj hok
    cases hfind : findItem db input.item_id with
    | none => simp [adjustStock, hfind] at hok
    | some item =>
        cases htype : input.adjustment_type with
        | ADDITION =>
            simp only [adjustStock, hfind, htype, Except.ok.injEq] at hok
            subst hok
            exact ⟨rfl,
              fun _ => ⟨jsAbs_nonneg _, fun h0 => jsAbs_pos _ h0⟩,
              fun hcon => by simp [htype] at hcon,
              fun hcon => by simp [htype] at hcon⟩
        | REMOVAL =>
            simp only [adjustStock, hfind, htype] at hok
            by_cases hc : item.current_stock + -(jsAbs input.quantity_change) < 0
            · rw [if_pos hc] at hok
              simp at hok
            · rw [if_neg hc] at hok
              simp only [Except.ok.injEq] at hok
              subst hok
              refine ⟨rfl, fun hcon => by simp [htype] at hcon, fun _ => ⟨?_, ?_⟩,
                fun hcon => by simp [htype] at hcon⟩
              · show -(jsAbs input.quantity_change) ≤ 0
                have := jsAbs_nonneg input.quantity_change
                omega
              · intro h0
                show -(jsAbs input.quantity_change) < 0
                have := jsAbs_pos input.quantity_change h0
                omega
        | CORRECTION =>
            simp only [adjustStock, hfind, htype] at hok
            by_cases hc : item.current_stock + input.quantity_change < 0
            · rw [if_pos hc] at hok
              simp at hok
            · rw [if_neg hc] at hok
              simp only [Except.ok.injEq] at hok
              subst hok
              exact ⟨rfl, fun hcon => by simp [htype] at hcon,
                fun hcon => by simp [htype] at hcon, fun _ => rfl⟩
  · intro woId now db a ha
    cases hwo : findWorkOrder db woId with
    | none =>
        simp only [completeWorkOrder, hwo] at ha
        exact Or.inl ha
    | some wo =>
        by_cases hst : wo.status = .IN_PROGRESS
        · cases hloop : completeLines wo now
            (db.workOrderItems.filter (fun woi => woi.work_order_id == woId)) db with
          | mk res db2 =>
              have hne : ¬ (wo.status ≠ WorkOrderStatus.IN_PROGRESS) := by simp [hst]
              have hmem : a ∈ (completeLines wo now
                  (db.workOrderItems.filter
                    (fun woi => woi.work_order_id == woId)) db).2.stockAdjustments := by
                rw [hloop]
                cases res with
                | error e =>
                    simp only [completeWorkOrder, hwo, if_neg hne, hloop] at ha
                    exact ha
                | ok v =>
                    simp only [completeWorkOrder, hwo, if_neg hne, hloop] at ha
                    exact ha
              rcases completeLines_adjs_arith wo now _ db a hmem with hold | hprops
              · exact Or.inl hold
              · obtain ⟨h1, h2, -, -, -, l, hl, h6⟩ := hprops
                exact Or.inr ⟨h1, h2, l, (List.mem_filter.mp hl).1,
                  eq_of_beq (List.mem_filter.mp hl).2, h6⟩
        · simp only [completeWorkOrder, hwo, if_pos hst] at ha
          exact Or.inl ha

/-- Witness for C3 (Scenario A): ADDITION of 50 on stock 100 stores
`quantity_change = +50`, `previous_stock = 100`, `new_stock = 150`, and the
stored change is strictly positive. -/
theorem ledger_arithmetic_and_sign_witness :
    (adjustStock ⟨1, .ADDITION, 50, "restock"⟩ "u" 7 adjDB).1.map
      (fun a => (a.new_stock, a.previous_stock, a.quantity_change)) =
      Except.ok (150, 100, 50) ∧ (0 : Int) < 50 := by
  have h := ledger_arithmetic_and_sign.1 ⟨1, .ADDITION, 50, "restock"⟩ "u" 7 adjDB
    ⟨0, 1, .ADDITION, 50, "restock", 100, 150, "u", 7⟩ rfl
  exact ⟨rfl, (h.2.1 rfl).2 (by decide)⟩

/-- Claim C8 (counterexample): neither `adjustStockInputSchema` (`z.string()`
with no minimum length) nor the handler rejects an empty `reason`: the call
succeeds, mutates the stock and persists the audit row with `reason = ""`. -/
theorem adjustStock_accepts_empty_reason :
    (adjustStock ⟨1, .REMOVAL, 10, ""⟩ "u" 7 adjDB).1 =
      Except.ok ⟨0, 1, .REMOVAL, -10, "", 100, 90, "u", 7⟩ ∧
    stockOf (adjustStock ⟨1, .REMOVAL, 10, ""⟩ "u" 7 adjDB).2 1 = some 90 ∧
    (adjustStock ⟨1, .REMOVAL, 10, ""⟩ "u" 7 adjDB).2.stockAdjustments.length = 1 :=
  ⟨rfl, rfl, rfl⟩

/-- Claim C8 (amended): `reason` is required only as a string field; success of
`adjustStock` is independent of the reason text (in particular the empty
string is accepted), and the stored row carries the caller's reason verbatim. -/
theorem adjustStock_reason_passthrough :
    (∀ (input : AdjustStockInput) u now db s1 s2,
      (adjustStock { input with reason := s1 } u now db).1.isOk =
        (adjustStock { input with reason := s2 } u now db).1.isOk) ∧
    (∀ input u now db adj, (adjustStock input u now db).1 = Except.ok adj →
      adj.reason = input.reason) := by
  constructor
  · intro input u now db s1 s2
    cases hfind : findItem db input.item_id with
    | none => simp [adjustStock, hfind]
    | some item =>
        cases htype : input.adjustment_type with
        | ADDITION =>
            simp only [adjustStock, hfind, htype]
            rfl
        | REMOVAL =>
            simp only [adjustStock, hfind, htype]
            by_cases hc : item.current_stock + -(jsAbs input.quantity_change) < 0
            · simp only [if_pos hc]
            · simp only [if_neg hc]
              rfl
        | CORRECTION =>
            simp only [adjustStock, hfind, htype]
            by_cases hc : item.current_stock + input.quantity_change < 0
            · simp only [if_pos hc]
            · simp only [if_neg hc]
              rfl
  · intro input u now db adj hok
    cases hfind : findItem db input.item_id with
    | none => simp [adjustStock, hfind] at hok
    | some item =>
        cases htype : input.adjustment_type with
        | ADDITION =>
            simp only [adjustStock, hfind, htype, Except.ok.injEq] at hok
            subst hok
            rfl
        | REMOVAL =>
            simp only [adjustStock, hfind, htype] at hok
            by_cases hc : item.current_stock + -(jsAbs input.quantity_change) < 0
            · rw [if_pos hc] at hok
              simp at hok
            · rw [if_neg hc] at hok
              simp only [Except.ok.injEq] at hok
              subst hok
              rfl
        | CORRECTION =>
            simp only [adjustStock, hfind, htype] at hok
            by_cases hc : item.current_stock + input.quantity_change < 0
            · rw [if_pos hc] at hok
              simp at hok
            · rw [if_neg hc] at hok
              simp only [Except.ok.injEq] at hok
              subst hok
              rfl

/-- Witness for C8: the audit row persisted for an empty-reason call carries
the empty reason verbatim. -/
theorem adjustStock_reason_passthrough_witness :
    (adjustStock ⟨1, .REMOVAL, 10, ""⟩ "u" 7 adjDB).1.map (fun a => a.reason) =
      Except.ok "" := by
  have h := adjustStock_reason_passthrough.2 ⟨1, .REMOVAL, 10, ""⟩ "u" 7 adjDB
    ⟨0, 1, .REMOVAL, -10, "", 100, 90, "u", 7⟩ rfl
  rw [show (adjustStock ⟨1, .REMOVAL, 10, ""⟩ "u" 7 adjDB).1 =
    Except.ok ⟨0, 1, .REMOVAL, -10, "", 100, 90, "u", 7⟩ from rfl]
  exact congrArg Except.ok h

/-- Claim C1 (evaluation at the failing input): completing work order 1 of
`failDB` fails on its second line (stock 30 < required 40), yet the first
line's deduction (50 → 45) and its audit row are already persisted and the
order is still IN_PROGRESS — the completion is not atomic. -/
theorem completeWorkOrder_partial_write_at_failing_input :
    (completeWorkOrder 1 9 failDB).1 = Except.error (.invalidOperation
      "Insufficient stock for item SKU-B. Available: 30, Required: 40") ∧
    stockOf (completeWorkOrder 1 9 failDB).2 1 = some 45 ∧
    (completeWorkOrder 1 9 failDB).2.stockAdjustments.map adjSummary =
      [(1, .REMOVAL, -5, "Work order completion: WO-2024-01-01-0001", "tech-1")] ∧
    (findWorkOrder (completeWorkOrder 1 9 failDB).2 1).map (fun w => w.status) =
      some .IN_PROGRESS :=
  ⟨rfl, rfl, rfl, rfl⟩

/-- Inverting a successful completion: the order was IN_PROGRESS, the returned
row is the COMPLETED update of it, and the post-state is the loop's post-state
with the order row rewritten. -/
theorem completeWorkOrder_ok_inv (woId now : Nat) (db : DB) (wo wo' : WorkOrder)
    (hfind : findWorkOrder db woId = some wo)
    (hok : (completeWorkOrder woId now db).1 = Except.ok wo') :
    wo.status = .IN_PROGRESS ∧
    wo' = { wo with status := .COMPLETED, completed_at := some now, updated_at := now } ∧
    ∃ db2 v, completeLines wo now
        (db.workOrderItems.filter (fun l => l.work_order_id == woId)) db =
          (Except.ok v, db2) ∧
      (completeWorkOrder woId now db).2 =
        { db2 with workOrders := (updateWorkOrdersById db2.workOrders woId (fun w => { w with status := .COMPLETED, completed_at := some now, updated_at := now })) } := by
  have hst : wo.status = .IN_PROGRESS := by
    by_contra hs
    simp only [completeWorkOrder, hfind, if_pos hs] at hok
    simp at hok
  have hne : ¬ (wo.status ≠ WorkOrderStatus.IN_PROGRESS) := by simp [hst]
  cases hloop : completeLines wo now
      (db.workOrderItems.filter (fun l => l.work_order_id == woId)) db with
  | mk res db2 =>
      cases res with
      | error e =>
          simp only [completeWorkOrder, hfind, if_neg hne, hloop] at hok
          simp at hok
      | ok v =>
          simp only [completeWorkOrder, hfind, if_neg hne, hloop, Except.ok.injEq] at hok
          refine ⟨hst, hok.symm, db2, v, rfl, ?_⟩
          simp only [completeWorkOrder, hfind, if_neg hne, hloop]

/-- After a successful completion, reading the work order back yields the
COMPLETED row. -/
theorem findWorkOrder_after_complete (woId now : Nat) (db : DB) (wo wo' : WorkOrder)
    (hfind : findWorkOrder db woId = some wo)
    (hok : (completeWorkOrder woId now db).1 = Except.ok wo') :
    findWorkOrder (completeWorkOrder woId now db).2 woId =
      some { wo with status := .COMPLETED, completed_at := some now, updated_at := now } := by
  obtain ⟨hst, -, db2, v, hloop, hpost⟩ :=
    completeWorkOrder_ok_inv woId now db wo wo' hfind hok
  have hwos : db2.workOrders = db.workOrders := by
    have hf := (completeLines_frame wo now
      (db.workOrderItems.filter (fun l => l.work_order_id == woId)) db).1
    rw [hloop] at hf
    exact hf
  rw [hpost]
  simp only [findWorkOrder]
  rw [hwos, find?_updateWorkOrdersById db.workOrders woId woId (fun w => { w with status := .COMPLETED, completed_at := some now, updated_at := now }) (fun w => rfl),
      if_pos rfl,
      (show db.workOrders.find? (fun w => w.id == woId) = some wo from hfind)]
  rfl

/-- Claim C6: a successful completion of an IN_PROGRESS work order decrements
every line's item stock by its `quantity_used`, appends exactly one REMOVAL
audit row per line carrying the negated quantity, the work-order-number reason
and the assigned technician, marks the order COMPLETED with `completed_at`
set, and creates no adjustment when there are no lines. -/
theorem completeWorkOrder_success_spec (woId now : Nat) (db : DB) (wo wo' : WorkOrder)
    (hfind : findWorkOrder db woId = some wo)
    (hok : (completeWorkOrder woId now db).1 = Except.ok wo') :
    wo.status = .IN_PROGRESS ∧
    wo' = { wo with status := .COMPLETED, completed_at := some now, updated_at := now } ∧
    (findWorkOrder (completeWorkOrder woId now db).2 woId).map
      (fun w => (w.status, w.completed_at)) = some (.COMPLETED, some now) ∧
    (∀ x, stockOf (completeWorkOrder woId now db).2 x =
      (stockOf db x).map (fun s => s -
        usedFor x (db.workOrderItems.filter (fun l => l.work_order_id == woId)))) ∧
    (completeWorkOrder woId now db).2.stockAdjustments.map adjSummary =
      db.stockAdjustments.map adjSummary ++
        (db.workOrderItems.filter (fun l => l.work_order_id == woId)).map
          (lineSummary wo) ∧
    (db.workOrderItems.filter (fun l => l.work_order_id == woId) = [] →
      (completeWorkOrder woId now db).2.stockAdjustments = db.stockAdjustments) := by
  obtain ⟨hst, hwo', db2, v, hloop, hpost⟩ :=
    completeWorkOrder_ok_inv woId now db wo wo' hfind hok
  refine ⟨hst, hwo', ?_, ?_, ?_, ?_⟩
  · rw [findWorkOrder_after_complete woId now db wo wo' hfind hok]
    rfl
  · intro x
    rw [hpost]
    exact completeLines_ok_stocks wo now _ db db2 v hloop x
  · rw [hpost]
    exact completeLines_ok_adjustments wo now _ db db2 v hloop
  · intro h0
    rw [hpost]
    rw [h0] at hloop
    simp only [completeLines, Prod.mk.injEq] at hloop
    obtain ⟨-, rfl⟩ := hloop
    rfl

/-- Witness for C6 (Scenario D): completing the two-line IN_PROGRESS order of
`sampleDB` leaves stocks 45 and 27, exactly two REMOVAL rows referencing the
work-order number, and the order COMPLETED with `completed_at` set. -/
theorem completeWorkOrder_success_spec_witness :
    stockOf (completeWorkOrder 1 9 sampleDB).2 1 = some 45 ∧
    stockOf (completeWorkOrder 1 9 sampleDB).2 2 = some 27 ∧
    (completeWorkOrder 1 9 sampleDB).2.stockAdjustments.map adjSummary =
      [(1, .REMOVAL, -5, "Work order completion: WO-2024-01-01-0001", "tech-1"),
       (2, .REMOVAL, -3, "Work order completion: WO-2024-01-01-0001", "tech-1")] ∧
    (findWorkOrder (completeWorkOrder 1 9 sampleDB).2 1).map
      (fun w => (w.status, w.completed_at)) = some (.COMPLETED, some 9) := by
  have h := completeWorkOrder_success_spec 1 9 sampleDB woSample
    { woSample with status := .COMPLETED, completed_at := some 9, updated_at := 9 }
    rfl rfl
  refine ⟨?_, ?_, ?_, h.2.2.1⟩
  · rw [h.2.2.2.1 1]
    rfl
  · rw [h.2.2.2.1 2]
    rfl
  · rw [h.2.2.2.2.1]
    rfl

/-- Claim C7: `completeWorkOrder` fails NotFound when the order does not
exist and InvalidState (“must be IN_PROGRESS”) when its status is not
IN_PROGRESS, leaving the state unchanged in both cases; in particular a second
completion of an already-completed order fails and deducts nothing further. -/
theorem completeWorkOrder_gate_spec (woId now : Nat) (db : DB) :
    (findWorkOrder db woId = none →
      completeWorkOrder woId now db =
        (Except.error (.notFound
          ("Work order with ID " ++ toString woId ++ " not found")), db)) ∧
    (∀ wo, findWorkOrder db woId = some wo → wo.status ≠ .IN_PROGRESS →
      completeWorkOrder woId now db =
        (Except.error (.invalidState
          ("Work order must be IN_PROGRESS to complete. Current status: " ++
           wo.status.toDbString)), db)) ∧
    (∀ wo wo' now2, findWorkOrder db woId = some wo →
      (completeWorkOrder woId now db).1 = Except.ok wo' →
      completeWorkOrder woId now2 (completeWorkOrder woId now db).2 =
        (Except.error (.invalidState
          ("Work order must be IN_PROGRESS to complete. Current status: " ++
           WorkOrderStatus.COMPLETED.toDbString)),
         (completeWorkOrder woId now db).2)) := by
  refine ⟨?_, ?_, ?_⟩
  · intro h
    simp [completeWorkOrder, h]
  · intro wo h hs
    simp only [completeWorkOrder, h, if_pos hs]
  · intro wo wo' now2 h hok
    have hfind2 := findWorkOrder_after_complete woId now db wo wo' h hok
    generalize hgen : (completeWorkOrder woId now db).2 = dbp at hfind2 ⊢
    simp only [completeWorkOrder, hfind2,
      if_pos (show ({ wo with status := WorkOrderStatus.COMPLETED, completed_at := some now, updated_at := now } : WorkOrder).status ≠ WorkOrderStatus.IN_PROGRESS by simp)]

/-- Witness for C7 (Scenario F and NotFound): work order 2 does not exist in
`sampleDB`; completing order 1 twice fails the second time with the
InvalidState message and leaves the first call's state untouched. -/
theorem completeWorkOrder_gate_spec_witness :
    completeWorkOrder 2 9 sampleDB =
      (Except.error (.notFound
        ("Work order with ID " ++ toString (2 : Nat) ++ " not found")), sampleDB) ∧
    completeWorkOrder 1 11 (completeWorkOrder 1 9 sampleDB).2 =
      (Except.error (.invalidState
        ("Work order must be IN_PROGRESS to complete. Current status: " ++
         WorkOrderStatus.COMPLETED.toDbString)),
       (completeWorkOrder 1 9 sampleDB).2) := by
  refine ⟨(completeWorkOrder_gate_spec 2 9 sampleDB).1 rfl, ?_⟩
  exact (completeWorkOrder_gate_spec 1 9 sampleDB).2.2 woSample
    { woSample with status := .COMPLETED, completed_at := some 9, updated_at := 9 }
    11 rfl rfl

/-- `createWorkOrder` never touches the items table. -/
theorem createWorkOrder_items_eq (input : CreateWorkOrderInput) (cb num : String)
    (now : Nat) (db : DB) : (createWorkOrder input cb num now db).2.items = db.items := by
  cases hu : findUserByClerkId db input.assigned_technician with
  | none => simp [createWorkOrder, hu]
  | some technician =>
      by_cases hrole : technician.role = UserRole.TECHNICIAN
      · have hne : ¬ (technician.role ≠ UserRole.TECHNICIAN) := by simp [hrole]
        cases hlines : checkWorkOrderLines db input.items with
        | error e => simp [createWorkOrder, hu, if_neg hne, hlines]
        | ok v => simp [createWorkOrder, hu, if_neg hne, hlines]
      · simp [createWorkOrder, hu, if_pos hrole]

/-- `createPurchaseOrder` never touches the items table. -/
theorem createPurchaseOrder_items_eq (input : CreatePurchaseOrderInput) (cb num : String)
    (now : Nat) (db : DB) : (createPurchaseOrder input cb num now db).2.items = db.items := by
  cases hs : findSupplier db input.supplier_id with
  | none => simp [createPurchaseOrder, hs]
  | some s =>
      simp only [createPurchaseOrder, hs]
      split <;> rfl

/-- Claim C10: `updateItem` never changes any item's `current_stock` — its
input schema carries no such field and the handler writes only the provided
catalog fields plus `updated_at` — and `createWorkOrder` and
`createPurchaseOrder` leave the items table untouched entirely, so among the
public operations only the Recorder (`adjustStock`) and `completeWorkOrder`
mutate `current_stock`. -/
theorem current_stock_frame :
    (∀ input now db, (updateItem input now db).2.items.map
        (fun it => (it.id, it.current_stock)) =
      db.items.map (fun it => (it.id, it.current_stock))) ∧
    (∀ input cb num now db,
      (createWorkOrder input cb num now db).2.items = db.items) ∧
    (∀ input cb num now db,
      (createPurchaseOrder input cb num now db).2.items = db.items) := by
  refine ⟨?_, ?_, ?_⟩
  · intro input now db
    cases hfind : findItem db input.id with
    | none => simp [updateItem, hfind]
    | some item =>
        simp only [updateItem, hfind]
        split
        all_goals
          simp only [updateItemsById, List.map_map]
          refine List.map_congr_left ?_
          intro it hit
          by_cases hid : it.id = input.id <;> simp [Function.comp, hid]
  · intro input cb num now db
    exact createWorkOrder_items_eq input cb num now db
  · intro input cb num now db
    exact createPurchaseOrder_items_eq input cb num now db

/-- Non-negativity survives rewriting one row to a non-negative stock. -/
theorem nonneg_after_update (l : List Item) (id : Nat) (ns : Int) (now : Nat)
    (h : ∀ it ∈ l, 0 ≤ it.current_stock) (hns : 0 ≤ ns) :
    ∀ it ∈ updateItemsById l id
      (fun it => { it with current_stock := ns, updated_at := now }),
      0 ≤ it.current_stock := by
  intro it hit
  simp only [updateItemsById, List.mem_map] at hit
  obtain ⟨it0, hit0, rfl⟩ := hit
  by_cases hid : it0.id = id
  · simp [hid, hns]
  · simpa [hid] using h it0 hit0

/-- Claim C2: every core operation — `adjustStock`, `completeWorkOrder`,
`createWorkOrder`, `createPurchaseOrder`, `updateItem` — maps a state in which
all items have non-negative stock to a state in which all items have
non-negative stock, whether the call succeeds or fails. -/
theorem operations_preserve_stock_nonneg (db : DB) (h : allStocksNonneg db) :
    (∀ input u now, allStocksNonneg (adjustStock input u now db).2) ∧
    (∀ woId now, allStocksNonneg (completeWorkOrder woId now db).2) ∧
    (∀ input cb num now, allStocksNonneg (createWorkOrder input cb num now db).2) ∧
    (∀ input cb num now, allStocksNonneg (createPurchaseOrder input cb num now db).2) ∧
    (∀ input now, allStocksNonneg (updateItem input now db).2) := by
  refine ⟨?_, ?_, ?_, ?_, ?_⟩
  · intro input u now
    cases hfind : findItem db input.item_id with
    | none => simpa [adjustStock, hfind, allStocksNonneg] using h
    | some item =>
        have hmem := List.mem_of_find?_eq_some hfind
        have hstock := h item hmem
        cases htype : input.adjustment_type with
        | ADDITION =>
            simp only [adjustStock, hfind, htype]
            refine nonneg_after_update db.items input.item_id _ now h ?_
            have := jsAbs_nonneg input.quantity_change
            omega
        | REMOVAL =>
            simp only [adjustStock, hfind, htype]
            by_cases hc : item.current_stock + -(jsAbs input.quantity_change) < 0
            · simp only [if_pos hc]
              exact h
            · simp only [if_neg hc]
              exact nonneg_after_update db.items input.item_id _ now h (by omega)
        | CORRECTION =>
            simp only [adjustStock, hfind, htype]
            by_cases hc : item.current_stock + input.quantity_change < 0
            · simp only [if_pos hc]
              exact h
            · simp only [if_neg hc]
              exact nonneg_after_update db.items input.item_id _ now h (by omega)
  · intro woId now
    cases hwo : findWorkOrder db woId with
    | none => simpa [completeWorkOrder, hwo, allStocksNonneg] using h
    | some wo =>
        by_cases hst : wo.status = .IN_PROGRESS
        · have hne : ¬ (wo.status ≠ WorkOrderStatus.IN_PROGRESS) := by simp [hst]
          cases hloop : completeLines wo now
              (db.workOrderItems.filter (fun woi => woi.work_order_id == woId)) db with
          | mk res db2 =>
              have hnn : ∀ it ∈ db2.items, 0 ≤ it.current_stock := by
                have hx := completeLines_nonneg wo now
                  (db.workOrderItems.filter (fun woi => woi.work_order_id == woId)) db h
                rw [hloop] at hx
                exact hx
              cases res with
              | error e =>
                  simp only [completeWorkOrder, hwo, if_neg hne, hloop]
                  exact hnn
              | ok v =>
                  simp only [completeWorkOrder, hwo, if_neg hne, hloop]
                  exact hnn
        · simpa [completeWorkOrder, hwo, if_pos hst, allStocksNonneg] using h
  · intro input cb num now
    intro it hit
    rw [createWorkOrder_items_eq input cb num now db] at hit
    exact h it hit
  · intro input cb num now
    intro it hit
    rw [createPurchaseOrder_items_eq input cb num now db] at hit
    exact h it hit
  · intro input now
    cases hfind : findItem db input.id with
    | none => simpa [updateItem, hfind, allStocksNonneg] using h
    | some item =>
        simp only [updateItem, hfind]
        split
        all_goals
          intro it hit
          simp only [updateItemsById, List.mem_map] at hit
          obtain ⟨it0, hit0, rfl⟩ := hit
          by_cases hid : it0.id = input.id <;> simpa [hid] using h it0 hit0

/-- Witness for C2: `adjDB` satisfies the invariant and still does after a
failing REMOVAL of 150. -/
theorem operations_preserve_stock_nonneg_witness :
    allStocksNonneg adjDB ∧
    allStocksNonneg (adjustStock ⟨1, .REMOVAL, 150, "x"⟩ "u" 7 adjDB).2 := by
  have h : allStocksNonneg adjDB := by decide
  exact ⟨h, (operations_preserve_stock_nonneg adjDB h).1 ⟨1, .REMOVAL, 150, "x"⟩ "u" 7⟩

/-! ## Purchase-order valuation -/

theorem map_filter_key {α : Type} (key : α → Nat) (p : Nat → Bool) (l : List α) :
    (l.filter (fun a => p (key a))).map key = (l.map key).filter p := by
  induction l with
  | nil => rfl
  | cons a l ih =>
      by_cases hc : p (key a)
      · simp [List.filter_cons, hc, ih]
      · simp [List.filter_cons, hc, ih]

theorem contains_eq_true_iff (L : List Nat) (x : Nat) : L.contains x = true ↔ x ∈ L := by
  constructor
  · intro h
    obtain ⟨b, hb, he⟩ := List.contains_iff_exists_mem_beq.mp h
    rw [eq_of_beq he]
    exact hb
  · intro h
    exact List.contains_iff_exists_mem_beq.mpr ⟨x, h, by simp⟩

/-- The batch-validation guard of `createPurchaseOrder`: with unique item ids on
both sides and every requested id present, `inArray` matches exactly one row
per requested id, so the length comparison succeeds. -/
theorem filter_contains_length (db : DB) (itemIds : List Nat)
    (hdb : (db.items.map (fun it => it.id)).Nodup)
    (hin : itemIds.Nodup)
    (hex : ∀ x ∈ itemIds, ∃ it ∈ db.items, it.id = x) :
    (db.items.filter (fun it => itemIds.contains it.id)).length = itemIds.length := by
  have hmap := map_filter_key (fun it => it.id) (fun x => itemIds.contains x) db.items
  have hnodup_f : ((db.items.map (fun it => it.id)).filter
      (fun x => itemIds.contains x)).Nodup := hdb.filter _
  have hperm : List.Perm ((db.items.map (fun it => it.id)).filter
      (fun x => itemIds.contains x)) itemIds := by
    rw [List.perm_ext_iff_of_nodup hnodup_f hin]
    intro x
    simp only [List.mem_filter, List.mem_map]
    constructor
    · rintro ⟨-, hx⟩
      exact (contains_eq_true_iff itemIds x).mp hx
    · intro hx
      refine ⟨?_, (contains_eq_true_iff itemIds x).mpr hx⟩
      obtain ⟨it, hit, hid⟩ := hex x hx
      exact ⟨it, hit, hid⟩
  have hlen1 : (db.items.filter (fun it => itemIds.contains it.id)).length =
      ((db.items.filter (fun it => itemIds.contains it.id)).map (fun it => it.id)).length :=
    (List.length_map _ _).symm
  rw [hlen1, hmap, hperm.length_eq]

/-- Claim C9 (counterexample): both lines reference the existing item 1 and
supplier 1 exists, yet the handler rejects the order — its batch validation
compares row counts, which breaks on duplicate item ids, throwing a NotFound
error whose missing-ids list is empty — and persists nothing. -/
theorem createPurchaseOrder_duplicate_lines_rejected :
    createPurchaseOrder ⟨1, [⟨1, 2, 3⟩, ⟨1, 1, 3⟩], none⟩ "buyer" "PO-1" 3 sampleDB =
      (Except.error (.notFound "Items with ids [] not found"), sampleDB) := rfl

/-- Claim C9 (amended): for an existing supplier and lines with pairwise
distinct item ids all referencing existing items, `createPurchaseOrder`
persists a DRAFT order whose `total_amount` is the sum of the input
`quantity × unit_price` over the lines, persists every line with
`total_price = quantity × unit_price`, and changes no item (in particular no
`current_stock`). -/
theorem createPurchaseOrder_success_spec (input : CreatePurchaseOrderInput)
    (cb num : String) (now : Nat) (db : DB) (sup : Supplier)
    (hsup : findSupplier db input.supplier_id = some sup)
    (hdb : (db.items.map (fun it => it.id)).Nodup)
    (hin : (input.items.map (fun line => line.item_id)).Nodup)
    (hex : ∀ line ∈ input.items, ∃ it ∈ db.items, it.id = line.item_id) :
    ∃ po, createPurchaseOrder input cb num now db =
        (Except.ok po, { db with purchaseOrders := db.purchaseOrders ++ [po], purchaseOrderItems := db.purchaseOrderItems ++ input.items.map (fun line => ⟨po.id, line.item_id, line.quantity, line.unit_price, (line.quantity : Rat) * line.unit_price⟩) }) ∧
      po.status = .DRAFT ∧
      po.total_amount =
        (input.items.map (fun line => (line.quantity : Rat) * line.unit_price)).sum ∧
      po.po_number = num ∧ po.supplier_id = input.supplier_id ∧
      (createPurchaseOrder input cb num now db).2.items = db.items := by
  have hex' : ∀ x ∈ input.items.map (fun line => line.item_id),
      ∃ it ∈ db.items, it.id = x := by
    intro x hx
    obtain ⟨line, hline, rfl⟩ := List.mem_map.mp hx
    exact hex line hline
  have hlen := filter_contains_length db (input.items.map (fun line => line.item_id))
    hdb hin hex'
  have hne : ¬ ((db.items.filter (fun it =>
      (input.items.map (fun line => line.item_id)).contains it.id)).length ≠
      (input.items.map (fun line => line.item_id)).length) := fun hcon => hcon hlen
  simp only [createPurchaseOrder, hsup, if_neg hne]
  refine ⟨_, rfl, rfl, ?_, rfl, rfl, trivial⟩
  show input.items.foldl (fun sum line => sum + (line.quantity : Rat) * line.unit_price) 0 = _
  rw [List.sum_eq_foldl, List.foldl_map]

/-- Witness for C9 (Scenario E): lines (item 1, qty 7, price 12.33) and
(item 2, qty 3, price 45.67) produce a DRAFT order totalling 223.32 and leave
the items (hence every `current_stock`) untouched. -/
theorem createPurchaseOrder_success_spec_witness :
    (createPurchaseOrder ⟨1, [⟨1, 7, (1233 : Rat)/100⟩, ⟨2, 3, (4567 : Rat)/100⟩], none⟩
        "buyer" "PO-1" 3 sampleDB).1.map (fun po => (po.status, po.total_amount)) =
      Except.ok (.DRAFT, (22332 : Rat)/100) ∧
    (createPurchaseOrder ⟨1, [⟨1, 7, (1233 : Rat)/100⟩, ⟨2, 3, (4567 : Rat)/100⟩], none⟩
        "buyer" "PO-1" 3 sampleDB).2.items = sampleDB.items := by
  obtain ⟨po, hpo, hstat, htot, -, -, hitems⟩ :=
    createPurchaseOrder_success_spec
      ⟨1, [⟨1, 7, (1233 : Rat)/100⟩, ⟨2, 3, (4567 : Rat)/100⟩], none⟩
      "buyer" "PO-1" 3 sampleDB ⟨1, "Acme"⟩ rfl (by decide) (by decide) (by decide)
  refine ⟨?_, hitems⟩
  rw [show (createPurchaseOrder
      ⟨1, [⟨1, 7, (1233 : Rat)/100⟩, ⟨2, 3, (4567 : Rat)/100⟩], none⟩
      "buyer" "PO-1" 3 sampleDB).1 = Except.ok po from congrArg Prod.fst hpo]
  simp only [Except.map]
  rw [hstat, htot]
  refine congrArg Except.ok (congrArg _ ?_)
  simp only [List.map_cons, List.map_nil, List.sum_cons, List.sum_nil]
  norm_num

end Erp
